import Mathlib

/-!
Shallow embedding of `utils/torsion_submit/monitor_torsiondrives.py`.

The script defines a class `TorsionMonitor` holding a mutable list of job
dictionaries (`self.td_jobs`).  We embed a job dictionary as the structure
`Job` below, restricted to the keys the monitor reads and writes, and each
method as a pure function from the old job list (plus an environment
describing the file system and the remote client's responses) to the new
job list.

Numeric scalars coming from the server (energies, geometries, gradients)
are embedded as `Rat`; the Python float format specifiers (`{:13.7f}`,
`{:15.7f}`, `{:13.5e}`) are abstracted as parameters of type
`Rat → String` bundled in `PyFormat`, since the claims under study concern
the structure of the emitted files and which values are embedded in them,
not decimal rendering.
-/

namespace TorsionMonitor

/-- Python truthiness of a value that is either a string or `None`:
`None` and the empty string are falsy, every other string is truthy.
This is the test `if job['id']` applies to the `id` field. -/
def idTruthy : Option String → Bool
  | none => false
  | some s => !s.isEmpty

/-- One entry of `self.td_jobs`: a job dictionary, restricted to the keys
the monitor reads or writes.  `progress = none` and `error = none` model
the corresponding key being absent from the dictionary. -/
structure Job where
  name : String
  mol_name : String
  id : Option String
  status : String
  progress : Option Nat
  error : Option String
  deriving Repr, DecidableEq

/-- One entry of the download ledger file `downloaded.json`: the code reads
`downloaded_job_dict['id']` and `downloaded_job_dict['progress']`.  The
ledger is written from jobs that went through `get_update`, so `progress`
is present there; `id` may be any value, the code only uses entries whose
id is a key of `d_id_jobs` (hence a truthy id of some job). -/
structure LedgerEntry where
  id : Option String
  progress : Nat
  deriving Repr, DecidableEq

/-- A record returned by `client.query_procedures`: the code reads
`record.id`, `record.status.value` and `len(record.optimization_history)`. -/
structure ProcRecord where
  id : String
  status : String
  optimization_history : List String
  deriving Repr, DecidableEq

/-- A record dictionary returned by `client.query_services` under the
projection `{procedure_id, status, optimization_history, error}`. -/
structure ServiceRecord where
  procedure_id : String
  status : String
  optimization_history : List String
  error : Option String
  deriving Repr, DecidableEq

/-- The environment one call of `get_update` runs in: the contents of the
download ledger file (`none` when the file does not exist), the list of
records the `query_procedures` call returns, and the list of records the
`query_services` call returns (`none` when that call raises `IOError`). -/
structure Env where
  ledger : Option (List LedgerEntry)
  procResp : List ProcRecord
  serviceResp : Option (List ServiceRecord)
  deriving Repr, DecidableEq

/-- Effect of one ledger entry on one job (body of the
`for downloaded_job_dict in downloaded_jobs` loop): if the entry's id is the
key of this job in `d_id_jobs` (so the job's id is truthy and equal to it),
force `status = "DOWNLOADED"` and copy the recorded progress. -/
def ledgerStep (j : Job) (e : LedgerEntry) : Job :=
  if idTruthy j.id && (e.id == j.id) then
    { j with status := "DOWNLOADED", progress := some e.progress }
  else j

/-- Effect of the whole ledger loop on one job. -/
def applyLedger (ledger : List LedgerEntry) (j : Job) : Job :=
  ledger.foldl ledgerStep j

/-- The job list after the download-ledger pass of `get_update`
(`if os.path.exists(self.downloaded_json_fn): ...`).  Python mutates the
job dictionaries through the id-keyed dict `d_id_jobs`; under the program
invariant that ids are unique among jobs that have one (spec section 3)
this is the same as updating, for each ledger entry, every job whose
truthy id equals the entry's id. -/
def jobsAfterLedger (env : Env) (jobs : List Job) : List Job :=
  match env.ledger with
  | none => jobs
  | some ledger => jobs.map (applyLedger ledger)

/-- `query_job_ids`: ids of the jobs in `d_id_jobs` (truthy id) whose
status is not `"DOWNLOADED"` after the ledger pass. -/
def queryJobIds (jobs : List Job) : List String :=
  (jobs.filter (fun j => idTruthy j.id && j.status != "DOWNLOADED")).filterMap
    (fun j => j.id)

/-- Effect of one `query_procedures` record on one job (body of the
`for record in self.client.query_procedures(...)` loop). -/
def procStep (r : ProcRecord) (j : Job) : Job :=
  if idTruthy j.id && (j.id == some r.id) then
    { j with status := r.status,
             progress := some r.optimization_history.length }
  else j

/-- Whether `d_id_jobs` has a job under key `i`. -/
def hasJobWithId (jobs : List Job) (i : String) : Bool :=
  jobs.any (fun j => idTruthy j.id && j.id == some i)

/-- The `query_procedures` result loop.  `job = d_id_jobs[record.id]` is a
bare dictionary access: a record whose id matches no job raises `KeyError`,
which is not caught anywhere in `get_update` — the loop stops there with the
updates of the earlier records already applied, and the exception propagates
(second component `true`). -/
def procLoop : List ProcRecord → List Job → List Job × Bool
  | [], jobs => (jobs, false)
  | r :: rs, jobs =>
    if hasJobWithId jobs r.id then procLoop rs (jobs.map (procStep r))
    else (jobs, true)

/-- The job list after the ledger pass and the `query_procedures` loop. -/
def jobsAfterProc (env : Env) (jobs : List Job) : List Job :=
  (procLoop env.procResp (jobsAfterLedger env jobs)).1

/-- Whether the `query_procedures` loop raised an uncaught `KeyError`. -/
def procRaised (env : Env) (jobs : List Job) : Bool :=
  (procLoop env.procResp (jobsAfterLedger env jobs)).2

/-- `incomplete_job_ids`: ids of the jobs in `d_id_jobs` whose status is
`"INCOMPLETE"` after the ledger pass and the procedure query. -/
def incompleteJobIds (jobs : List Job) : List String :=
  (jobs.filter (fun j => idTruthy j.id && j.status == "INCOMPLETE")).filterMap
    (fun j => j.id)

/-- Effect of one `query_services` record dictionary on one job (body of
the `try:` block in the `for record_dict in record_list` loop). -/
def serviceStep (r : ServiceRecord) (j : Job) : Job :=
  if idTruthy j.id && (j.id == some r.procedure_id) then
    let j1 := { j with status := r.status,
                       progress := some r.optimization_history.length }
    if j1.status == "ERROR" then { j1 with error := r.error } else j1
  else j

/-- Effect of the whole `query_services` loop on one job.  The dictionary
access `d_id_jobs[record_dict['procedure_id']]` sits inside a
`try/except` whose handler only prints the record, so a record matching no
job is skipped and the loop continues; this is exactly what the guarded
step gives. -/
def applyService (resp : List ServiceRecord) (j : Job) : Job :=
  resp.foldl (fun j r => serviceStep r j) j

/-- Result of one `get_update` call: the final job list, whether the call
aborted with an uncaught exception, and the id lists handed to
`query_procedures` and `query_services` (the latter empty when the call
aborted before reaching it). -/
structure UpdateResult where
  jobs : List Job
  raised : Bool
  procQueryIds : List String
  serviceQueryIds : List String
  deriving Repr, DecidableEq

/-- `record_list` as it stands after the `try/except IOError` block: the
response of `query_services`, or `[]` when that call raised `IOError`
(the handler prints the error and sets `record_list = []`). -/
def serviceRecordList (env : Env) : List ServiceRecord :=
  match env.serviceResp with
  | none => []
  | some resp => resp

/-- `TorsionMonitor.get_update`.  Stages, in source order: download-ledger
pass, `query_procedures` loop (aborts on unknown id), `query_services`
loop on the jobs still `"INCOMPLETE"` (an `IOError` of the query is caught
and replaces the record list by `[]`; unknown ids in its records are
skipped). -/
def get_update (env : Env) (jobs : List Job) : UpdateResult :=
  let jobs1 := jobsAfterLedger env jobs
  let qids := queryJobIds jobs1
  let pres := procLoop env.procResp jobs1
  if pres.2 then
    { jobs := pres.1, raised := true, procQueryIds := qids,
      serviceQueryIds := [] }
  else
    let sids := incompleteJobIds pres.1
    { jobs := pres.1.map (applyService (serviceRecordList env)), raised := false,
      procQueryIds := qids, serviceQueryIds := sids }

/-- The invariant of spec section 3 that makes the id-keyed dictionary
`d_id_jobs` faithful to per-id updates on the job list: among the jobs
with a truthy id, no id occurs twice. -/
def uniqueIdsB : List Job → Bool
  | [] => true
  | j :: rest =>
    (!(idTruthy j.id) || rest.all (fun k => k.id != j.id)) && uniqueIdsB rest

def uniqueIds (jobs : List Job) : Prop := uniqueIdsB jobs = true

/- ## Checkpoint loader (`load_checkpoint`) -/

/-- One value of the `dihedrals` mapping in the checkpoint file: the loader
reads `dihedrals[d]['status']` (a required key) and
`dihedrals[d].get('jobid')` (optional).  Other keys are copied verbatim
into the job dictionary and never read again by the monitor, so they are
not modelled. -/
structure DihedralEntry where
  status : String
  jobid : Option String
  deriving Repr, DecidableEq

/-- One value of the top-level checkpoint mapping, keyed by the molecule
source filename. -/
structure MoleculeEntry where
  dihedrals : List (String × DihedralEntry)
  deriving Repr, DecidableEq

/-- Python `posixpath.basename`: everything after the last slash. -/
def basename (p : String) : String :=
  (p.splitOn "/").getLastD ""

/-- Root part of Python `posixpath.splitext`: strip the suffix starting at
the last dot, unless every character before that dot is itself a dot.  The
loader applies this to a basename, which contains no slash, so the
separator search of the Python implementation is vacuous. -/
def splitextRoot (s : String) : String :=
  let cs := s.toList
  match cs.reverse.findIdx? (fun c => c == '.') with
  | none => s
  | some r =>
    let i := cs.length - 1 - r
    if (cs.take i).any (fun c => c != '.') then String.mk (cs.take i) else s

/-- `mol_name = os.path.splitext(os.path.basename(fname))[0]`. -/
def molNameOf (fname : String) : String := splitextRoot (basename fname)

/-- `TorsionMonitor.load_checkpoint`: iterate the checkpoint mapping in
order, skip the reserved `scan_conf` key, and emit one job per dihedral
entry, named by concatenating the molecule name, an underscore and the
dihedral key. -/
def load_checkpoint : List (String × MoleculeEntry) → List Job
  | [] => []
  | (fname, m) :: rest =>
    if fname = "scan_conf" then load_checkpoint rest
    else
      (m.dihedrals.map fun p =>
        { name := molNameOf fname ++ "_" ++ p.1,
          mol_name := molNameOf fname,
          id := p.2.jobid,
          status := p.2.status,
          progress := none,
          error := none }) ++ load_checkpoint rest

/- ## Reporter (`print_progress`) -/

/-- The list `[j['progress'] for j in self.td_jobs]`; `none` when some job
dictionary lacks the `progress` key (Python raises `KeyError` there). -/
def progressList : List Job → Option (List Nat)
  | [] => some []
  | j :: rest =>
    match j.progress, progressList rest with
    | some p, some ps => some (p :: ps)
    | _, _ => none

/-- numpy `progress_data.max()` for a nonempty list (numpy raises on an
empty array; the `[]` case is never used under that hypothesis). -/
def maxProgress : List Nat → Nat
  | [] => 0
  | p :: ps => ps.foldl max p

/-- The histogram bin width computed by `print_progress`:
`bin_width = max(max_progress // 6, 1)`.  `none` models the exceptional
paths: a job without a `progress` value (`KeyError`) or an empty job list
(numpy `max` raises). -/
def print_progress_bin_width (jobs : List Job) : Option Nat :=
  match progressList jobs with
  | none => none
  | some [] => none
  | some (p :: ps) => some (max (maxProgress (p :: ps) / 6) 1)

/-- The bin edges `np.arange(0, max_progress + bin_width, bin_width)`:
multiples of the bin width strictly below `max_progress + bin_width`. -/
def progressBins (maxp bw : Nat) : List Nat :=
  (List.range ((maxp + bw + bw - 1) / bw)).map (fun k => k * bw)

/- ## Result materializer (`download_complete`, `get_xyz_str`,
`plot_1d_energies`) -/

/-- Lexicographic strict order on grid ids (Python tuple `<`). -/
def gridLt : List Int → List Int → Bool
  | [], [] => false
  | [], _ :: _ => true
  | _ :: _, [] => false
  | a :: xs, b :: ys => if a < b then true else if b < a then false else gridLt xs ys

/-- Insertion into an ascending list, modelling Python `sorted`. -/
def insertGrid (g : List Int) : List (List Int) → List (List Int)
  | [] => [g]
  | h :: t => if gridLt g h then g :: h :: t else h :: insertGrid g t

def sortGrids (l : List (List Int)) : List (List Int) :=
  l.foldr insertGrid []

/-- Dictionary lookup keyed by grid id (`d[grid_id]`); `none` models
`KeyError`. -/
def lookupGrid {α : Type} (d : List (List Int × α)) (g : List Int) : Option α :=
  (d.find? (fun p => p.1 == g)).map Prod.snd

/-- Python `repr` of an integer tuple, as an f-string interpolates a grid
id: `(15,)` for a 1-tuple, `(a, b)` otherwise. -/
def showGridId : List Int → String
  | [x] => "(" ++ toString x ++ ",)"
  | xs => "(" ++ String.intercalate ", " (xs.map toString) ++ ")"

/-- The Python float format specifiers appearing in the script
(`{:13.7f}`, `{:15.7f}`, `{:13.5e}`), abstracted as string renderers: the
claims under study depend only on which value is rendered where, not on
the decimal text. -/
structure PyFormat where
  fixed13_7 : Rat → String
  fixed15_7 : Rat → String
  sci13_5 : Rat → String

/-- Python `f"{e:7s}"`: left-justify in a field of width 7. -/
def pad7 (s : String) : String :=
  s ++ String.mk (List.replicate (7 - s.length) ' ')

/-- The Bohr-to-Angstrom conversion factor `0.529177` of `get_xyz_str`. -/
def bohr2ang : Rat := 529177 / 1000000

/-- The molecule data `get_xyz_str` reads from a QCFractal molecule:
`symbols` and `geometry` (a row per atom). -/
structure QCMol where
  symbols : List String
  geometry : List (Rat × Rat × Rat)
  deriving Repr, DecidableEq

/-- `TorsionMonitor.get_xyz_str`: atom-count line, title line, then one
line per atom with the element symbol and the coordinates converted from
Bohr to Angstrom. -/
def get_xyz_str (fmt : PyFormat) (qc_mol : QCMol) (title : String) : String :=
  let geo := qc_mol.geometry.map
    (fun t => (t.1 * bohr2ang, t.2.1 * bohr2ang, t.2.2 * bohr2ang))
  let noa := qc_mol.symbols.length
  let lines := [toString noa, title] ++
    (qc_mol.symbols.zip geo).map (fun p =>
      pad7 p.1 ++ " " ++ fmt.fixed13_7 p.2.1 ++ " " ++
        fmt.fixed13_7 p.2.2.1 ++ " " ++ fmt.fixed13_7 p.2.2.2)
  String.intercalate "\n" lines

/-- What `plt.savefig` receives in `plot_1d_energies`: target filename,
x data (first component of each grid id), y data (energies relative to the
minimum, in kcal/mol), and the title. -/
structure PlotSpec where
  filename : String
  xs : List Int
  ys : List Rat
  title : String
  deriving Repr, DecidableEq

/-- The Hartree-to-kcal/mol conversion factor `627.509`. -/
def hartree2kcal : Rat := 627509 / 1000

/-- numpy `np.min` for a nonempty list (the `[]` case is unreachable where
this is used). -/
def minRat : List Rat → Rat
  | [] => 0
  | y :: t => t.foldl min y

/-- `TorsionMonitor.plot_1d_energies`: on an empty dictionary print a skip
message and return without writing anything (`.ok none`); otherwise sort
the grid ids, take the first (angular) component of each id as x, shift
energies to the scan minimum and convert to kcal/mol as y, and save the
figure (`.ok (some spec)`).  `.error` models an uncaught exception:
`IndexError` from `gid[0]` on an empty grid tuple, or a failed energy
lookup. -/
def plot_1d_energies (energy_dict : List (List Int × Rat))
    (filename : String) (title : String) : Except String (Option PlotSpec) :=
  if energy_dict.isEmpty then Except.ok none
  else
    let grid_ids := sortGrids (energy_dict.map Prod.fst)
    match grid_ids.mapM (fun gid => gid.head?) with
    | none => Except.error "IndexError"
    | some xs =>
      match grid_ids.mapM (fun gid => lookupGrid energy_dict gid) with
      | none => Except.error "KeyError"
      | some ys =>
        let m := minRat ys
        Except.ok (some
          { filename := filename
            xs := xs
            ys := ys.map (fun y => (y - m) * hartree2kcal)
            title := title })

/-- One per-grid-point result record as `download_complete` reads it:
`grad_result_dict['driver'].value` and `grad_result_dict['return_result']`
(the flattened gradient matrix). -/
structure ResultRecord where
  driver : String
  return_result : List Rat
  deriving Repr, DecidableEq

/-- One torsion-drive procedure record as `download_complete` uses it: the
values of `record.get_final_energies()`, `record.get_final_molecules()`
and `record.get_final_results()`, each keyed by grid id. -/
structure TDRecord where
  final_energies : List (List Int × Rat)
  final_molecules : List (List Int × QCMol)
  final_results : List (List Int × ResultRecord)
  deriving Repr, DecidableEq

/-- `sorted_grid_ids = sorted(final_energy_dict)`. -/
def sortedGridIds (rec : TDRecord) : List (List Int) :=
  sortGrids (rec.final_energies.map Prod.fst)

/-- `np.array(...).reshape(-1, 3)`; `none` models the `ValueError` numpy
raises when the length is not a multiple of 3. -/
def chunk3 : List Rat → Option (List (Rat × Rat × Rat))
  | [] => some []
  | x :: y :: z :: rest => (chunk3 rest).map (fun l => (x, y, z) :: l)
  | _ => none

/-- Title of an xyz block:
`f"{job['name']} {grid_id} energy = {energy:15.7f}"`. -/
def xyzTitle (fmt : PyFormat) (name : String) (gid : List Int)
    (energy : Rat) : String :=
  name ++ " " ++ showGridId gid ++ " energy = " ++ fmt.fixed15_7 energy

/-- Title of a gradient block:
`f"Gradients for {job['name']} {grid_id} energy = {energy:15.7f}"`. -/
def gradTitle (fmt : PyFormat) (name : String) (gid : List Int)
    (energy : Rat) : String :=
  "Gradients for " ++ name ++ " " ++ showGridId gid ++ " energy = " ++
    fmt.fixed15_7 energy

/-- State of the xyz-file writing loop: content written so far, current
value of the Python loop variable `energy` (`none` before the first
iteration), and whether a lookup raised `KeyError`. -/
structure XyzPhase where
  content : String
  lastEnergy : Option Rat
  failed : Bool
  deriving Repr, DecidableEq

/-- The `for grid_id in sorted_grid_ids` loop writing the `.xyz` file.  A
failed lookup aborts the loop, leaving the content written so far in the
already-open file. -/
def xyzLoop (fmt : PyFormat) (name : String) (rec : TDRecord) :
    List (List Int) → XyzPhase → XyzPhase
  | [], st => st
  | gid :: rest, st =>
    match lookupGrid rec.final_molecules gid,
        lookupGrid rec.final_energies gid with
    | some grid_mol, some energy =>
      xyzLoop fmt name rec rest
        { content := st.content ++
            get_xyz_str fmt grid_mol (xyzTitle fmt name gid energy) ++ "\n",
          lastEnergy := some energy, failed := false }
    | _, _ => { st with failed := true }

/-- Reasons the gradient-file loop aborts: the failed
`assert grad_result_dict['driver'].value == 'gradient'`, a failed
dictionary lookup, or a failed reshape. -/
inductive GradFail where
  | wrongType (driver : String)
  | keyMissing
  | badShape
  deriving Repr, DecidableEq

/-- State of the gradient-file writing loop: content written to the (open)
file so far, and the exception that aborted the loop, if any. -/
structure GradPhase where
  content : String
  fail : Option GradFail
  deriving Repr, DecidableEq

/-- One block of the `.gradxyz` file: atom count (`noa = len(grad_mat)`),
title, then one line per atom with the gradient vector in scientific
notation, terminated by the newline that
`gradxyzfile.write('\n'.join(gradxyz_str_lines) + '\n')` appends. -/
def gradBlock (fmt : PyFormat) (elem_list : List String)
    (grad_mat : List (Rat × Rat × Rat)) (title : String) : String :=
  let noa := grad_mat.length
  let lines := [toString noa, title] ++
    (elem_list.zip grad_mat).map (fun p =>
      pad7 p.1 ++ " " ++ fmt.sci13_5 p.2.1 ++ " " ++
        fmt.sci13_5 p.2.2.1 ++ " " ++ fmt.sci13_5 p.2.2.2)
  String.intercalate "\n" lines ++ "\n"

/-- The `for grid_id in sorted_grid_ids` loop writing the `.gradxyz` file.
Modelling note on the title: the Python body interpolates the variable
`energy` into each block title, but `energy` is never assigned inside this
loop — it still holds the value left by the last iteration of the
xyz-writing loop, so every block title carries the energy of the last grid
point.  The parameter `energy` below is accordingly constant across the
loop, faithful to the source. -/
def gradLoop (fmt : PyFormat) (name : String) (rec : TDRecord)
    (energy : Rat) : List (List Int) → String → GradPhase
  | [], content => { content := content, fail := none }
  | gid :: rest, content =>
    match lookupGrid rec.final_results gid with
    | none => { content := content, fail := some GradFail.keyMissing }
    | some r =>
      if r.driver != "gradient" then
        { content := content, fail := some (GradFail.wrongType r.driver) }
      else
        match chunk3 r.return_result with
        | none => { content := content, fail := some GradFail.badShape }
        | some grad_mat =>
          match lookupGrid rec.final_molecules gid with
          | none => { content := content, fail := some GradFail.keyMissing }
          | some grid_mol =>
            gradLoop fmt name rec energy rest
              (content ++ gradBlock fmt grid_mol.symbols grad_mat
                (gradTitle fmt name gid energy))

/-- Which exception, if any, aborted the materialization of one job. -/
inductive MatFail where
  | xyzKey
  | plotRaise
  | grad (f : GradFail)
  deriving Repr, DecidableEq

/-- Result of materializing one COMPLETE job inside `download_complete`:
for each output file, whether it was created and with what content, plus
the exception that aborted the job, if any. -/
structure MatResult where
  xyzFile : Option String
  plotWritten : Bool
  gradFile : Option String
  fail : Option MatFail
  deriving Repr, DecidableEq

/-- The state of the xyz-writing phase after its loop over all sorted grid
ids. -/
def xyzPhaseOf (fmt : PyFormat) (name : String) (rec : TDRecord) : XyzPhase :=
  xyzLoop fmt name rec (sortedGridIds rec)
    { content := "", lastEnergy := none, failed := false }

/-- The Python variable `energy` as the gradient loop sees it: the energy
of the last grid point processed by the xyz loop.  The default `0` is
never used: when the grid list is empty the gradient loop builds no title,
and when it is nonempty and the xyz phase succeeded, `lastEnergy` is set. -/
def lastEnergyOf (fmt : PyFormat) (name : String) (rec : TDRecord) : Rat :=
  ((xyzPhaseOf fmt name rec).lastEnergy).getD 0

/-- The per-job body of `TorsionMonitor.download_complete`: write the
`.xyz` file (created by `open(..., 'w')`, hence present even when a lookup
aborts midway), render the energy plot, then write the `.gradxyz` file —
also created by `open(..., 'w')` before any driver check runs, so it
exists (with the blocks written so far) even when the assertion fails. -/
def download_complete_job (fmt : PyFormat) (name : String) (rec : TDRecord) :
    MatResult :=
  let xr := xyzPhaseOf fmt name rec
  if xr.failed then
    { xyzFile := some xr.content, plotWritten := false, gradFile := none,
      fail := some MatFail.xyzKey }
  else
    match plot_1d_energies rec.final_energies (name ++ ".pdf") name with
    | Except.error _ =>
      { xyzFile := some xr.content, plotWritten := false, gradFile := none,
        fail := some MatFail.plotRaise }
    | Except.ok p =>
      let gr := gradLoop fmt name rec (lastEnergyOf fmt name rec)
        (sortedGridIds rec) ""
      { xyzFile := some xr.content, plotWritten := p.isSome,
        gradFile := some gr.content, fail := gr.fail.map MatFail.grad }

/- ## Concrete instances used by witnesses and counterexamples -/

def jobsW1 : List Job :=
  [{ name := "m_d1", mol_name := "m", id := some "1",
     status := "INCOMPLETE", progress := none, error := none },
   { name := "m_d2", mol_name := "m", id := some "2",
     status := "INCOMPLETE", progress := none, error := none }]

def entryW1 : LedgerEntry := { id := some "1", progress := 24 }

def ledgerW1 : List LedgerEntry := [entryW1]

def envW1 : Env :=
  { ledger := some ledgerW1
    procResp := [{ id := "2", status := "INCOMPLETE",
                   optimization_history := ["o1", "o2"] }]
    serviceResp := some [{ procedure_id := "2", status := "ERROR",
                           optimization_history := ["o1", "o2", "o3"],
                           error := some "opt failure" }] }

def jobsW4 : List Job :=
  [{ name := "m_d1", mol_name := "m", id := some "1",
     status := "INCOMPLETE", progress := none, error := none }]

def envW4 : Env := { ledger := none, procResp := [], serviceResp := some [] }

def jobsW6 : List Job :=
  [{ name := "m_d1", mol_name := "m", id := some "1",
     status := "INCOMPLETE", progress := none, error := none }]

def envW6 : Env :=
  { ledger := none
    procResp := [{ id := "1", status := "INCOMPLETE",
                   optimization_history := [] }]
    serviceResp := none }

def jobsW10 : List Job :=
  [{ name := "m_d9", mol_name := "m", id := none,
     status := "INCOMPLETE", progress := none, error := none }]

def envW10 : Env :=
  { ledger := some [{ id := some "1", progress := 3 }]
    procResp := []
    serviceResp := none }

def jobsC5 : List Job :=
  [{ name := "m_d1", mol_name := "m", id := some "1",
     status := "INCOMPLETE", progress := none, error := none }]

def envC5 : Env :=
  { ledger := none
    procResp := [{ id := "2", status := "COMPLETE",
                   optimization_history := [] }]
    serviceResp := some [] }

def jobsW5 : List Job :=
  [{ name := "m_d1", mol_name := "m", id := some "1",
     status := "INCOMPLETE", progress := none, error := none }]

def respW5 : List ServiceRecord :=
  [{ procedure_id := "9", status := "ERROR", optimization_history := [],
     error := some "unknown job" },
   { procedure_id := "1", status := "ERROR",
     optimization_history := ["o1"], error := some "opt failure" }]

def envW5 : Env :=
  { ledger := none, procResp := [], serviceResp := some respW5 }

def stateW7 : List (String × MoleculeEntry) :=
  [("mols/mol1.mol2",
    { dihedrals := [("d1", { status := "COMPLETE", jobid := some "1" }),
                    ("d2", { status := "INCOMPLETE", jobid := none })] }),
   ("scan_conf", { dihedrals := [] })]

def jobsW9 : List Job :=
  [{ name := "m_d1", mol_name := "m", id := some "1",
     status := "INCOMPLETE", progress := some 0, error := none },
   { name := "m_d2", mol_name := "m", id := some "2",
     status := "INCOMPLETE", progress := some 0, error := none }]

/-- A formatter instantiation rendering rationals with `toString`, used to
evaluate the embedding at concrete inputs. -/
def fmtPlain : PyFormat :=
  { fixed13_7 := fun q => toString q
    fixed15_7 := fun q => toString q
    sci13_5 := fun q => toString q }

def recC2 : TDRecord :=
  { final_energies := [([0], 1)]
    final_molecules := [([0], { symbols := ["H"], geometry := [(0, 0, 0)] })]
    final_results := [([0], { driver := "energy",
                              return_result := [0, 0, 0] })] }

def molH : QCMol := { symbols := ["H"], geometry := [(0, 0, 0)] }

def recW2 : TDRecord :=
  { final_energies := [([0], 1), ([180], 2)]
    final_molecules := [([0], molH), ([180], molH)]
    final_results := [([0], { driver := "gradient",
                              return_result := [1, 2, 3] }),
                      ([180], { driver := "energy",
                                return_result := [4, 5, 6] })] }

def recC3 : TDRecord :=
  { final_energies := [([0], 1), ([180], 2)]
    final_molecules := [([0], molH), ([180], molH)]
    final_results := [([0], { driver := "gradient",
                              return_result := [1, 2, 3] }),
                      ([180], { driver := "gradient",
                                return_result := [4, 5, 6] })] }

/-- The composite effect on one job of a list of `query_procedures`
records, in order. -/
def applyProcList (rs : List ProcRecord) (j : Job) : Job :=
  rs.foldl (fun j r => procStep r j) j

/- ## Small-step lemmas about the reconciliation passes -/

lemma applyLedger_cons (e : LedgerEntry) (T : List LedgerEntry) (j : Job) :
    applyLedger (e :: T) j = applyLedger T (ledgerStep j e) := rfl

lemma applyProcList_cons (r : ProcRecord) (T : List ProcRecord) (j : Job) :
    applyProcList (r :: T) j = applyProcList T (procStep r j) := rfl

lemma applyService_cons (r : ServiceRecord) (T : List ServiceRecord) (j : Job) :
    applyService (r :: T) j = applyService T (serviceStep r j) := rfl

lemma ledgerStep_id (j : Job) (e : LedgerEntry) : (ledgerStep j e).id = j.id := by
  unfold ledgerStep; split <;> rfl

lemma procStep_id (r : ProcRecord) (j : Job) : (procStep r j).id = j.id := by
  unfold procStep; split <;> rfl

lemma serviceStep_id (r : ServiceRecord) (j : Job) :
    (serviceStep r j).id = j.id := by
  unfold serviceStep
  split
  · dsimp only
    split <;> rfl
  · rfl

lemma applyLedger_id (L : List LedgerEntry) (j : Job) :
    (applyLedger L j).id = j.id := by
  induction L generalizing j with
  | nil => rfl
  | cons e T ih => rw [applyLedger_cons, ih, ledgerStep_id]

lemma applyProcList_id (rs : List ProcRecord) (j : Job) :
    (applyProcList rs j).id = j.id := by
  induction rs generalizing j with
  | nil => rfl
  | cons r T ih => rw [applyProcList_cons, ih, procStep_id]

lemma applyService_id (resp : List ServiceRecord) (j : Job) :
    (applyService resp j).id = j.id := by
  induction resp generalizing j with
  | nil => rfl
  | cons r T ih => rw [applyService_cons, ih, serviceStep_id]

lemma ledgerStep_skip (j : Job) (e : LedgerEntry)
    (h : (idTruthy j.id && (e.id == j.id)) = false) : ledgerStep j e = j := by
  unfold ledgerStep; simp [h]

lemma procStep_skip (r : ProcRecord) (j : Job)
    (h : (idTruthy j.id && (j.id == some r.id)) = false) : procStep r j = j := by
  unfold procStep; simp [h]

lemma serviceStep_skip (r : ServiceRecord) (j : Job)
    (h : (idTruthy j.id && (j.id == some r.procedure_id)) = false) :
    serviceStep r j = j := by
  unfold serviceStep; simp [h]

lemma applyLedger_skip (L : List LedgerEntry) (j : Job)
    (h : ∀ e ∈ L, (idTruthy j.id && (e.id == j.id)) = false) :
    applyLedger L j = j := by
  induction L with
  | nil => rfl
  | cons e T ih =>
    rw [applyLedger_cons, ledgerStep_skip j e (h e (List.mem_cons_self e T))]
    exact ih fun x hx => h x (List.mem_cons_of_mem e hx)

lemma applyProcList_skip (rs : List ProcRecord) (j : Job)
    (h : ∀ r ∈ rs, (idTruthy j.id && (j.id == some r.id)) = false) :
    applyProcList rs j = j := by
  induction rs with
  | nil => rfl
  | cons r T ih =>
    rw [applyProcList_cons, procStep_skip r j (h r (List.mem_cons_self r T))]
    exact ih fun x hx => h x (List.mem_cons_of_mem r hx)

lemma applyService_skip (resp : List ServiceRecord) (j : Job)
    (h : ∀ r ∈ resp, (idTruthy j.id && (j.id == some r.procedure_id)) = false) :
    applyService resp j = j := by
  induction resp with
  | nil => rfl
  | cons r T ih =>
    rw [applyService_cons, serviceStep_skip r j (h r (List.mem_cons_self r T))]
    exact ih fun x hx => h x (List.mem_cons_of_mem r hx)

lemma map_applyProcList_nil (jobs : List Job) :
    jobs.map (applyProcList []) = jobs := by
  have h : ∀ j : Job, applyProcList [] j = j := fun _ => rfl
  calc jobs.map (applyProcList []) = jobs.map id := by
        exact List.map_congr_left fun j _ => h j
    _ = jobs := List.map_id jobs

/-- The `query_procedures` loop applies, to every job in the list, the
composite effect of some prefix of the response (the whole response when no
record's id triggers a `KeyError`). -/
lemma procLoop_chain (rs : List ProcRecord) (jobs : List Job) :
    ∃ k : Nat, (procLoop rs jobs).1 = jobs.map (applyProcList (rs.take k)) := by
  induction rs generalizing jobs with
  | nil => exact ⟨0, (map_applyProcList_nil jobs).symm⟩
  | cons r rs ih =>
    by_cases h : hasJobWithId jobs r.id = true
    · obtain ⟨k, hk⟩ := ih (jobs.map (procStep r))
      refine ⟨k + 1, ?_⟩
      have hloop : procLoop (r :: rs) jobs = procLoop rs (jobs.map (procStep r)) := by
        rw [procLoop, if_pos h]
      rw [hloop, hk, List.map_map]
      rfl
    · refine ⟨0, ?_⟩
      have hloop : procLoop (r :: rs) jobs = (jobs, true) := by
        rw [procLoop, if_neg h]
      rw [hloop, List.take_zero, map_applyProcList_nil]

lemma procLoop_length (rs : List ProcRecord) (jobs : List Job) :
    ((procLoop rs jobs).1).length = jobs.length := by
  obtain ⟨k, hk⟩ := procLoop_chain rs jobs
  rw [hk, List.length_map]

lemma jobsAfterLedger_length (env : Env) (jobs : List Job) :
    (jobsAfterLedger env jobs).length = jobs.length := by
  unfold jobsAfterLedger
  cases env.ledger <;> simp

lemma jobsAfterProc_length (env : Env) (jobs : List Job) :
    (jobsAfterProc env jobs).length = jobs.length := by
  unfold jobsAfterProc
  rw [procLoop_length, jobsAfterLedger_length]

/-- Every job after the procedure loop is some prefix of the procedure
response applied to the corresponding job after the ledger pass. -/
lemma jobsAfterProc_mem (env : Env) (jobs : List Job) :
    ∀ j2 ∈ jobsAfterProc env jobs,
      ∃ pre : List ProcRecord, (∀ r ∈ pre, r ∈ env.procResp) ∧
        ∃ j1 ∈ jobsAfterLedger env jobs, j2 = applyProcList pre j1 := by
  intro j2 h2
  obtain ⟨k, hk⟩ := procLoop_chain env.procResp (jobsAfterLedger env jobs)
  rw [jobsAfterProc, hk] at h2
  obtain ⟨j1, hj1, hj12⟩ := List.mem_map.mp h2
  exact ⟨env.procResp.take k, fun r hr => List.take_subset k env.procResp hr,
    j1, hj1, hj12.symm⟩

lemma mem_queryJobIds {jobs : List Job} {s : String} :
    s ∈ queryJobIds jobs ↔
      ∃ j ∈ jobs, j.id = some s ∧ idTruthy j.id = true ∧
        j.status ≠ "DOWNLOADED" := by
  unfold queryJobIds
  constructor
  · intro h
    obtain ⟨j, hj, hid⟩ := List.mem_filterMap.mp h
    obtain ⟨hmem, hcond⟩ := List.mem_filter.mp hj
    simp only [Bool.and_eq_true, bne_iff_ne, ne_eq] at hcond
    exact ⟨j, hmem, hid, hcond.1, hcond.2⟩
  · rintro ⟨j, hmem, hid, htr, hst⟩
    refine List.mem_filterMap.mpr ⟨j, List.mem_filter.mpr ⟨hmem, ?_⟩, hid⟩
    simp only [Bool.and_eq_true, bne_iff_ne, ne_eq]
    exact ⟨htr, hst⟩

lemma mem_incompleteJobIds {jobs : List Job} {s : String} :
    s ∈ incompleteJobIds jobs ↔
      ∃ j ∈ jobs, j.id = some s ∧ idTruthy j.id = true ∧
        j.status = "INCOMPLETE" := by
  unfold incompleteJobIds
  constructor
  · intro h
    obtain ⟨j, hj, hid⟩ := List.mem_filterMap.mp h
    obtain ⟨hmem, hcond⟩ := List.mem_filter.mp hj
    simp only [Bool.and_eq_true, beq_iff_eq] at hcond
    exact ⟨j, hmem, hid, hcond.1, hcond.2⟩
  · rintro ⟨j, hmem, hid, htr, hst⟩
    refine List.mem_filterMap.mpr ⟨j, List.mem_filter.mpr ⟨hmem, ?_⟩, hid⟩
    simp only [Bool.and_eq_true, beq_iff_eq]
    exact ⟨htr, hst⟩

/-- A job already carrying the fields a ledger entry `e` would set is left
unchanged by a ledger pass in which `e` is the only entry with its id. -/
lemma applyLedger_keep (L : List LedgerEntry) (e : LedgerEntry) (j : Job)
    (hone : ∀ e2 ∈ L, e2.id = e.id → e2 = e)
    (hid : j.id = e.id) (hst : j.status = "DOWNLOADED")
    (hpr : j.progress = some e.progress) :
    applyLedger L j = j := by
  induction L with
  | nil => rfl
  | cons a T ih =>
    rw [applyLedger_cons]
    have hstep : ledgerStep j a = j := by
      by_cases hg : (idTruthy j.id && (a.id == j.id)) = true
      · have haj : a.id = j.id := by
          have := (Bool.and_eq_true _ _).mp hg
          exact beq_iff_eq.mp this.2
        have hae : a = e := hone a (List.mem_cons_self a T) (haj.trans hid)
        unfold ledgerStep
        rw [if_pos hg, hae, ← hst, ← hpr]
      · exact ledgerStep_skip j a (Bool.not_eq_true _ ▸ Bool.of_not_eq_true hg)
    rw [hstep]
    exact ih fun e2 h2 => hone e2 (List.mem_cons_of_mem a h2)

/-- Effect of the ledger pass on a job whose (truthy) id is recorded in
ledger entry `e`, `e` being the only entry with that id: the job ends with
`status = "DOWNLOADED"` and the recorded progress. -/
lemma applyLedger_of_mem (L : List LedgerEntry) (e : LedgerEntry) (j : Job)
    (he : e ∈ L) (hone : ∀ e2 ∈ L, e2.id = e.id → e2 = e)
    (htr : idTruthy e.id = true) (hid : j.id = e.id) :
    (applyLedger L j).status = "DOWNLOADED" ∧
      (applyLedger L j).progress = some e.progress := by
  induction L generalizing j with
  | nil => cases he
  | cons a T ih =>
    rw [applyLedger_cons]
    by_cases hg : (idTruthy j.id && (a.id == j.id)) = true
    · have haj : a.id = j.id := by
        have := (Bool.and_eq_true _ _).mp hg
        exact beq_iff_eq.mp this.2
      have hae : a = e := hone a (List.mem_cons_self a T) (haj.trans hid)
      have hstep : ledgerStep j a =
          { j with status := "DOWNLOADED", progress := some e.progress } := by
        unfold ledgerStep
        rw [if_pos hg, hae]
      rw [hstep]
      have hkeep := applyLedger_keep T e
        { j with status := "DOWNLOADED", progress := some e.progress }
        (fun e2 h2 => hone e2 (List.mem_cons_of_mem a h2)) hid rfl rfl
      rw [hkeep]
      exact ⟨rfl, rfl⟩
    · have hstep : ledgerStep j a = j :=
        ledgerStep_skip j a (Bool.not_eq_true _ ▸ Bool.of_not_eq_true hg)
      rw [hstep]
      have heT : e ∈ T := by
        rcases List.mem_cons.mp he with hea | heT
        · exfalso
          apply hg
          have : idTruthy j.id = true := by rw [hid]; exact htr
          rw [Bool.and_eq_true]
          refine ⟨this, beq_iff_eq.mpr ?_⟩
          rw [← hea]
          exact hid.symm
        · exact heT
      exact ih j heT (fun e2 h2 => hone e2 (List.mem_cons_of_mem a h2)) hid

/- ## Projections of `get_update` -/

lemma get_update_raised (env : Env) (jobs : List Job) :
    (get_update env jobs).raised = procRaised env jobs := by
  unfold get_update procRaised
  by_cases h : (procLoop env.procResp (jobsAfterLedger env jobs)).2 = true <;>
    simp [h]

lemma get_update_jobs (env : Env) (jobs : List Job) :
    (get_update env jobs).jobs =
      if procRaised env jobs = true then jobsAfterProc env jobs
      else (jobsAfterProc env jobs).map (applyService (serviceRecordList env)) := by
  unfold get_update procRaised jobsAfterProc
  by_cases h : (procLoop env.procResp (jobsAfterLedger env jobs)).2 = true <;>
    simp [h]

lemma get_update_procQueryIds (env : Env) (jobs : List Job) :
    (get_update env jobs).procQueryIds = queryJobIds (jobsAfterLedger env jobs) := by
  unfold get_update
  by_cases h : (procLoop env.procResp (jobsAfterLedger env jobs)).2 = true <;>
    simp [h]

lemma get_update_serviceQueryIds (env : Env) (jobs : List Job)
    (hpr : procRaised env jobs = false) :
    (get_update env jobs).serviceQueryIds =
      incompleteJobIds (jobsAfterProc env jobs) := by
  unfold get_update jobsAfterProc
  unfold procRaised at hpr
  simp [hpr]

lemma get_update_length (env : Env) (jobs : List Job) :
    ((get_update env jobs).jobs).length = jobs.length := by
  rw [get_update_jobs]
  by_cases h : procRaised env jobs = true <;>
    simp [h, jobsAfterProc_length]

lemma uniqueIdsB_map (f : Job → Job) (hf : ∀ j, (f j).id = j.id) (l : List Job) :
    uniqueIdsB (l.map f) = uniqueIdsB l := by
  induction l with
  | nil => rfl
  | cons j T ih =>
    have hcomp : ((fun k : Job => k.id != j.id) ∘ f) =
        fun k : Job => k.id != j.id := by
      funext k
      simp only [Function.comp_apply]
      rw [hf k]
    have hall : ((T.map f).all fun k => k.id != j.id) =
        T.all fun k => k.id != j.id := by
      rw [List.all_map, hcomp]
    simp only [List.map_cons, uniqueIdsB, hf j, hall, ih]

lemma uniqueIdsB_eq_of_mem {l : List Job} (hU : uniqueIdsB l = true)
    {a b : Job} (ha : a ∈ l) (hb : b ∈ l)
    (htr : idTruthy a.id = true) (hab : a.id = b.id) : a = b := by
  induction l with
  | nil => cases ha
  | cons j T ih =>
    rw [uniqueIdsB] at hU
    obtain ⟨hhead, hrest⟩ := (Bool.and_eq_true _ _).mp hU
    rcases List.mem_cons.mp ha with rfl | haT
    · rcases List.mem_cons.mp hb with rfl | hbT
      · rfl
      · exfalso
        rw [htr, Bool.not_true, Bool.false_or, List.all_eq_true] at hhead
        have := hhead b hbT
        rw [bne_iff_ne] at this
        exact this hab.symm
    · rcases List.mem_cons.mp hb with rfl | hbT
      · exfalso
        have htrb : idTruthy b.id = true := by rw [← hab]; exact htr
        rw [htrb, Bool.not_true, Bool.false_or, List.all_eq_true] at hhead
        have := hhead a haT
        rw [bne_iff_ne] at this
        exact this hab
      · exact ih hrest haT hbT

lemma uniqueIdsB_jobsAfterLedger (env : Env) (jobs : List Job)
    (hU : uniqueIdsB jobs = true) :
    uniqueIdsB (jobsAfterLedger env jobs) = true := by
  unfold jobsAfterLedger
  cases env.ledger with
  | none => exact hU
  | some L => rw [uniqueIdsB_map (applyLedger L) (applyLedger_id L)]; exact hU

lemma uniqueIdsB_jobsAfterProc (env : Env) (jobs : List Job)
    (hU : uniqueIdsB jobs = true) :
    uniqueIdsB (jobsAfterProc env jobs) = true := by
  obtain ⟨k, hk⟩ := procLoop_chain env.procResp (jobsAfterLedger env jobs)
  unfold jobsAfterProc
  rw [hk, uniqueIdsB_map _ (applyProcList_id (env.procResp.take k))]
  exact uniqueIdsB_jobsAfterLedger env jobs hU

lemma jobsAfterLedger_mem (env : Env) (jobs : List Job) (L : List LedgerEntry)
    (hL : env.ledger = some L) :
    ∀ j1 ∈ jobsAfterLedger env jobs, ∃ j0 ∈ jobs, j1 = applyLedger L j0 := by
  unfold jobsAfterLedger
  rw [hL]
  intro j1 h1
  obtain ⟨j0, hj0, hj01⟩ := List.mem_map.mp h1
  exact ⟨j0, hj0, hj01.symm⟩

lemma jobsAfterLedger_mem_fwd (env : Env) (jobs : List Job) :
    ∀ j0 ∈ jobs, ∃ j1 ∈ jobsAfterLedger env jobs, j1.id = j0.id := by
  intro j0 hj0
  unfold jobsAfterLedger
  cases env.ledger with
  | none => exact ⟨j0, hj0, rfl⟩
  | some L =>
    exact ⟨applyLedger L j0, List.mem_map_of_mem (applyLedger L) hj0,
      applyLedger_id L j0⟩

lemma jobsAfterProc_mem_fwd (env : Env) (jobs : List Job) :
    ∀ j1 ∈ jobsAfterLedger env jobs,
      ∃ j2 ∈ jobsAfterProc env jobs, j2.id = j1.id := by
  intro j1 h1
  obtain ⟨k, hk⟩ := procLoop_chain env.procResp (jobsAfterLedger env jobs)
  unfold jobsAfterProc
  rw [hk]
  exact ⟨applyProcList (env.procResp.take k) j1,
    List.mem_map_of_mem _ h1, applyProcList_id _ j1⟩

/-- Core of claim C1: after the ledger pass and the procedure loop, every
job carrying the id of ledger entry `e` is `"DOWNLOADED"` with the ledger's
progress, provided every procedure record's id was actually queried. -/
lemma downloaded_after_proc
    (env : Env) (jobs : List Job) (L : List LedgerEntry) (e : LedgerEntry)
    (hL : env.ledger = some L) (he : e ∈ L)
    (hone : ∀ e2 ∈ L, e2.id = e.id → e2 = e)
    (htr : idTruthy e.id = true)
    (hproc : ∀ r ∈ env.procResp, r.id ∈ queryJobIds (jobsAfterLedger env jobs)) :
    ∀ j2 ∈ jobsAfterProc env jobs, j2.id = e.id →
      j2.status = "DOWNLOADED" ∧ j2.progress = some e.progress := by
  have hdown : ∀ j1 ∈ jobsAfterLedger env jobs, j1.id = e.id →
      j1.status = "DOWNLOADED" ∧ j1.progress = some e.progress := by
    intro j1 h1 hid1
    obtain ⟨j0, hj0, rfl⟩ := jobsAfterLedger_mem env jobs L hL j1 h1
    have hid0 : j0.id = e.id := by rw [← applyLedger_id L j0]; exact hid1
    exact applyLedger_of_mem L e j0 he hone htr hid0
  intro j2 h2 hid2
  obtain ⟨pre, hpre, j1, hj1, rfl⟩ := jobsAfterProc_mem env jobs j2 h2
  have hid1 : j1.id = e.id := by rw [← applyProcList_id pre j1]; exact hid2
  have hskip : applyProcList pre j1 = j1 := by
    apply applyProcList_skip
    intro r hr
    rw [Bool.eq_false_iff]
    intro hc
    obtain ⟨htr1, hbeq⟩ := (Bool.and_eq_true _ _).mp hc
    have hid1r : j1.id = some r.id := beq_iff_eq.mp hbeq
    obtain ⟨jj, hjj, hjjid, _, hjjst⟩ :=
      mem_queryJobIds.mp (hproc r (hpre r hr))
    have hjje : jj.id = e.id := by rw [hjjid, ← hid1r]; exact hid1
    exact hjjst (hdown jj hjj hjje).1
  rw [hskip]
  exact hdown j1 hj1 hid1

/- ## Claim C1 -/

/-- C1: for every job whose id appears in an entry of the download ledger
read at the start of reconciliation, after `get_update` completes that
job's status is `"DOWNLOADED"` and its progress is the ledger's recorded
value, whatever statuses and step counts the procedure query and the
service query return for the ids they were asked about (each returned
record's id being one of the queried ids). -/
theorem C1_ledger_job_stays_downloaded
    (env : Env) (jobs : List Job) (L : List LedgerEntry) (e : LedgerEntry)
    (_hU : uniqueIds jobs)
    (hL : env.ledger = some L) (he : e ∈ L)
    (hone : ∀ e2 ∈ L, e2.id = e.id → e2 = e)
    (htr : idTruthy e.id = true)
    (hproc : ∀ r ∈ env.procResp, r.id ∈ queryJobIds (jobsAfterLedger env jobs))
    (hserv : ∀ r ∈ serviceRecordList env,
        r.procedure_id ∈ incompleteJobIds (jobsAfterProc env jobs)) :
    (∀ j ∈ (get_update env jobs).jobs, j.id = e.id →
        j.status = "DOWNLOADED" ∧ j.progress = some e.progress) ∧
      ∀ j0 ∈ jobs, j0.id = e.id →
        ∃ j ∈ (get_update env jobs).jobs, j.id = e.id := by
  have hdp := downloaded_after_proc env jobs L e hL he hone htr hproc
  constructor
  · intro j hj hid
    rw [get_update_jobs] at hj
    by_cases hr : procRaised env jobs = true
    · rw [if_pos hr] at hj
      exact hdp j hj hid
    · rw [if_neg hr] at hj
      obtain ⟨j2, hj2, rfl⟩ := List.mem_map.mp hj
      have hid2 : j2.id = e.id := by
        rw [← applyService_id (serviceRecordList env) j2]; exact hid
      have hskip : applyService (serviceRecordList env) j2 = j2 := by
        apply applyService_skip
        intro r hr2
        rw [Bool.eq_false_iff]
        intro hc
        obtain ⟨htr2, hbeq⟩ := (Bool.and_eq_true _ _).mp hc
        have hid2r : j2.id = some r.procedure_id := beq_iff_eq.mp hbeq
        obtain ⟨jj, hjj, hjjid, _, hjjst⟩ :=
          mem_incompleteJobIds.mp (hserv r hr2)
        have hjje : jj.id = e.id := by rw [hjjid, ← hid2r]; exact hid2
        have hD := (hdp jj hjj hjje).1
        rw [hD] at hjjst
        exact absurd hjjst (by decide)
      rw [hskip]
      exact hdp j2 hj2 hid2
  · intro j0 hj0 hid0
    obtain ⟨j1, hj1, hid1⟩ := jobsAfterLedger_mem_fwd env jobs j0 hj0
    obtain ⟨j2, hj2, hid2⟩ := jobsAfterProc_mem_fwd env jobs j1 hj1
    rw [get_update_jobs]
    by_cases hr : procRaised env jobs = true
    · rw [if_pos hr]
      exact ⟨j2, hj2, by rw [hid2, hid1]; exact hid0⟩
    · rw [if_neg hr]
      exact ⟨applyService (serviceRecordList env) j2,
        List.mem_map_of_mem _ hj2,
        by rw [applyService_id, hid2, hid1]; exact hid0⟩

theorem C1_witness :
    uniqueIds jobsW1 ∧ entryW1 ∈ ledgerW1 ∧ idTruthy entryW1.id = true ∧
      ((∀ j ∈ (get_update envW1 jobsW1).jobs, j.id = entryW1.id →
          j.status = "DOWNLOADED" ∧ j.progress = some entryW1.progress) ∧
        ∀ j0 ∈ jobsW1, j0.id = entryW1.id →
          ∃ j ∈ (get_update envW1 jobsW1).jobs, j.id = entryW1.id) := by
  refine ⟨?_, ?_, ?_, ?_⟩
  · show uniqueIdsB jobsW1 = true
    decide
  · decide
  · decide
  · exact C1_ledger_job_stays_downloaded envW1 jobsW1 ledgerW1 entryW1
      (show uniqueIdsB jobsW1 = true by decide) rfl (by decide) (by decide)
      (by decide) (by decide) (by decide)

/- ## Claim C4 -/

/-- C4: in a run of `get_update` that does not abort, the set of ids
passed to `query_services` is exactly the set of ids of jobs whose status
after the ledger pass and the procedure query is `"INCOMPLETE"`; no job
with any other status is included in that query. -/
theorem C4_service_query_exactly_incomplete
    (env : Env) (jobs : List Job) (hU : uniqueIds jobs)
    (hraised : (get_update env jobs).raised = false) :
    (∀ s : String, s ∈ (get_update env jobs).serviceQueryIds ↔
        ∃ j ∈ jobsAfterProc env jobs, j.id = some s ∧ idTruthy j.id = true ∧
          j.status = "INCOMPLETE") ∧
      ∀ j ∈ jobsAfterProc env jobs, idTruthy j.id = true →
        j.status ≠ "INCOMPLETE" → ∀ s : String, j.id = some s →
          s ∉ (get_update env jobs).serviceQueryIds := by
  have hpr : procRaised env jobs = false := by
    rw [← get_update_raised]; exact hraised
  have hle := get_update_serviceQueryIds env jobs hpr
  constructor
  · intro s
    rw [hle]
    exact mem_incompleteJobIds
  · intro j hj htr hst s hid hmem
    rw [hle] at hmem
    obtain ⟨k, hk, hkid, _, hkst⟩ := mem_incompleteJobIds.mp hmem
    have hUp : uniqueIdsB (jobsAfterProc env jobs) = true :=
      uniqueIdsB_jobsAfterProc env jobs hU
    have hjk : j = k := uniqueIdsB_eq_of_mem hUp hj hk htr (by rw [hid, hkid])
    rw [hjk] at hst
    exact hst hkst

theorem C4_witness :
    uniqueIds jobsW4 ∧ (get_update envW4 jobsW4).raised = false ∧
      ((∀ s : String, s ∈ (get_update envW4 jobsW4).serviceQueryIds ↔
          ∃ j ∈ jobsAfterProc envW4 jobsW4, j.id = some s ∧
            idTruthy j.id = true ∧ j.status = "INCOMPLETE") ∧
        ∀ j ∈ jobsAfterProc envW4 jobsW4, idTruthy j.id = true →
          j.status ≠ "INCOMPLETE" → ∀ s : String, j.id = some s →
            s ∉ (get_update envW4 jobsW4).serviceQueryIds) := by
  refine ⟨?_, ?_, ?_⟩
  · show uniqueIdsB jobsW4 = true
    decide
  · decide
  · exact C4_service_query_exactly_incomplete envW4 jobsW4
      (show uniqueIdsB jobsW4 = true by decide) (by decide)

/- ## Claim C6 -/

/-- C6: when the `query_services` call raises a transport error
(`IOError`), `get_update` catches it, the job list stays exactly at its
post-procedure-query value (in particular status, progress and error of
every `"INCOMPLETE"` job are unchanged), and the call returns normally. -/
theorem C6_transport_error_degrades
    (env : Env) (jobs : List Job)
    (hs : env.serviceResp = none)
    (hpr : procRaised env jobs = false) :
    (get_update env jobs).raised = false ∧
      (get_update env jobs).jobs = jobsAfterProc env jobs ∧
      ∀ j ∈ jobsAfterProc env jobs, j.status = "INCOMPLETE" →
        ∃ j2 ∈ (get_update env jobs).jobs,
          j2.id = j.id ∧ j2.status = j.status ∧ j2.progress = j.progress ∧
            j2.error = j.error := by
  have hrl : serviceRecordList env = [] := by unfold serviceRecordList; rw [hs]
  have hjobs : (get_update env jobs).jobs = jobsAfterProc env jobs := by
    rw [get_update_jobs, if_neg (by rw [hpr]; simp), hrl]
    exact (List.map_congr_left fun j _ => rfl).trans (List.map_id _)
  refine ⟨by rw [get_update_raised]; exact hpr, hjobs, ?_⟩
  intro j hj _
  exact ⟨j, by rw [hjobs]; exact hj, rfl, rfl, rfl, rfl⟩

theorem C6_witness :
    envW6.serviceResp = none ∧ procRaised envW6 jobsW6 = false ∧
      ((get_update envW6 jobsW6).raised = false ∧
        (get_update envW6 jobsW6).jobs = jobsAfterProc envW6 jobsW6 ∧
        ∀ j ∈ jobsAfterProc envW6 jobsW6, j.status = "INCOMPLETE" →
          ∃ j2 ∈ (get_update envW6 jobsW6).jobs,
            j2.id = j.id ∧ j2.status = j.status ∧ j2.progress = j.progress ∧
              j2.error = j.error) :=
  ⟨rfl, by decide, C6_transport_error_degrades envW6 jobsW6 rfl (by decide)⟩

/- ## Claim C10 -/

/-- C10: a job whose `id` is missing (`None`) or falsy is left completely
unchanged by `get_update`, whatever the ledger file and the two remote
queries contain. -/
theorem C10_falsy_id_unchanged
    (env : Env) (jobs : List Job) (i : Nat) (hi : i < jobs.length)
    (hfalsy : idTruthy (jobs.get ⟨i, hi⟩).id = false) :
    (get_update env jobs).jobs[i]? = some (jobs.get ⟨i, hi⟩) := by
  have hj0 : jobs[i]? = some (jobs.get ⟨i, hi⟩) := by
    rw [List.getElem?_eq_getElem hi]
    rfl
  have h1 : (jobsAfterLedger env jobs)[i]? = some (jobs.get ⟨i, hi⟩) := by
    unfold jobsAfterLedger
    cases env.ledger with
    | none => exact hj0
    | some L =>
      rw [List.getElem?_map, hj0, Option.map_some']
      have : applyLedger L (jobs.get ⟨i, hi⟩) = jobs.get ⟨i, hi⟩ :=
        applyLedger_skip L _ fun e _ => by rw [hfalsy, Bool.false_and]
      rw [this]
  obtain ⟨k, hk⟩ := procLoop_chain env.procResp (jobsAfterLedger env jobs)
  have h2 : (jobsAfterProc env jobs)[i]? = some (jobs.get ⟨i, hi⟩) := by
    unfold jobsAfterProc
    rw [hk, List.getElem?_map, h1, Option.map_some']
    have : applyProcList (env.procResp.take k) (jobs.get ⟨i, hi⟩) =
        jobs.get ⟨i, hi⟩ :=
      applyProcList_skip _ _ fun r _ => by rw [hfalsy, Bool.false_and]
    rw [this]
  rw [get_update_jobs]
  by_cases hr : procRaised env jobs = true
  · rw [if_pos hr]
    exact h2
  · rw [if_neg hr, List.getElem?_map, h2, Option.map_some']
    have : applyService (serviceRecordList env) (jobs.get ⟨i, hi⟩) =
        jobs.get ⟨i, hi⟩ :=
      applyService_skip _ _ fun r _ => by rw [hfalsy, Bool.false_and]
    rw [this]

theorem C10_witness :
    0 < jobsW10.length ∧
      idTruthy (jobsW10.get ⟨0, by decide⟩).id = false ∧
      (get_update envW10 jobsW10).jobs[0]? =
        some (jobsW10.get ⟨0, by decide⟩) :=
  ⟨by decide, by decide,
    C10_falsy_id_unchanged envW10 jobsW10 0 (by decide) (by decide)⟩

/- ## Claim C5 -/

/-- C5 counterexample: a record returned by the PROCEDURE query whose id
matches no known job is not logged-and-skipped — the bare dictionary
access `d_id_jobs[record.id]` raises an uncaught `KeyError` and
`get_update` aborts, against the claim that records with unknown ids from
either remote query are skipped without raising. -/
theorem C5_counterexample : (get_update envC5 jobsC5).raised = true := by
  decide

/-- Unknown-id records have no effect on the service pass: folding the
response over a job equals folding only the records that pass any filter
containing every record that matches the job. -/
lemma applyService_filter (resp : List ServiceRecord)
    (q : ServiceRecord → Bool) (j : Job)
    (h : ∀ r ∈ resp,
      (idTruthy j.id && (j.id == some r.procedure_id)) = true → q r = true) :
    applyService resp j = applyService (resp.filter q) j := by
  induction resp generalizing j with
  | nil => rfl
  | cons r T ih =>
    by_cases hq : q r = true
    · rw [List.filter_cons, if_pos hq, applyService_cons, applyService_cons]
      apply ih
      intro r2 h2 hc
      apply h r2 (List.mem_cons_of_mem r h2)
      rwa [serviceStep_id] at hc
    · have hg : (idTruthy j.id && (j.id == some r.procedure_id)) = false := by
        rw [Bool.eq_false_iff]
        intro hc
        exact hq (h r (List.mem_cons_self r T) hc)
      rw [List.filter_cons, if_neg hq, applyService_cons,
        serviceStep_skip r j hg]
      exact ih j fun r2 h2 => h r2 (List.mem_cons_of_mem r h2)

/-- C5 (amended): in the SERVICE query loop, a returned record whose
`procedure_id` matches no known job is skipped without raising (dropping
all such records does not change the result), and every other record is
still applied normally; an unknown id in the PROCEDURE query response
instead raises an uncaught `KeyError` (see the counterexample). -/
theorem C5_amended_service_unknown_skipped
    (env : Env) (jobs : List Job) (resp : List ServiceRecord)
    (hs : env.serviceResp = some resp)
    (hpr : procRaised env jobs = false) :
    (get_update env jobs).raised = false ∧
      (get_update env jobs).jobs =
        (jobsAfterProc env jobs).map (applyService (resp.filter
          (fun r => hasJobWithId (jobsAfterProc env jobs) r.procedure_id))) := by
  have hrl : serviceRecordList env = resp := by
    unfold serviceRecordList; rw [hs]
  refine ⟨by rw [get_update_raised]; exact hpr, ?_⟩
  rw [get_update_jobs, if_neg (by rw [hpr]; simp), hrl]
  apply List.map_congr_left
  intro j hj
  apply applyService_filter
  intro r _ hc
  obtain ⟨htr, hbeq⟩ := (Bool.and_eq_true _ _).mp hc
  unfold hasJobWithId
  rw [List.any_eq_true]
  exact ⟨j, hj, by rw [Bool.and_eq_true]; exact ⟨htr, hbeq⟩⟩

theorem C5_amended_witness :
    envW5.serviceResp = some respW5 ∧ procRaised envW5 jobsW5 = false ∧
      ((get_update envW5 jobsW5).raised = false ∧
        (get_update envW5 jobsW5).jobs =
          (jobsAfterProc envW5 jobsW5).map (applyService (respW5.filter
            (fun r => hasJobWithId (jobsAfterProc envW5 jobsW5)
              r.procedure_id)))) :=
  ⟨rfl, by decide,
    C5_amended_service_unknown_skipped envW5 jobsW5 respW5 rfl (by decide)⟩

/- ## Claim C7 -/

/-- C7: for every well-formed checkpoint (distinct top-level keys),
`load_checkpoint` produces one job record per dihedral entry of every
top-level key other than the reserved `scan_conf`, and each record is
named by concatenating the molecule name and the dihedral key. -/
theorem C7_load_checkpoint_shape
    (state : List (String × MoleculeEntry))
    (hkeys : (state.map Prod.fst).Nodup) :
    (load_checkpoint state).length =
        ((state.filter fun fm => fm.1 != "scan_conf").map
          (fun fm => fm.2.dihedrals.length)).sum ∧
      ∀ j ∈ load_checkpoint state, ∃ fm ∈ state, fm.1 ≠ "scan_conf" ∧
        ∃ p ∈ fm.2.dihedrals, j.name = molNameOf fm.1 ++ "_" ++ p.1 := by
  induction state with
  | nil =>
    refine ⟨rfl, ?_⟩
    intro j hj
    cases hj
  | cons fm rest ih =>
    obtain ⟨fname, m⟩ := fm
    have hrest := ih (List.nodup_cons.mp (by simpa using hkeys)).2
    by_cases hsc : fname = "scan_conf"
    · have hload : load_checkpoint ((fname, m) :: rest) =
          load_checkpoint rest := by
        rw [load_checkpoint, if_pos hsc]
      have hfil : ((fname, m) :: rest).filter
          (fun fm => fm.1 != "scan_conf") =
            rest.filter fun fm => fm.1 != "scan_conf" := by
        rw [List.filter_cons, if_neg (by simp [hsc])]
      refine ⟨by rw [hload, hfil]; exact hrest.1, ?_⟩
      intro j hj
      rw [hload] at hj
      obtain ⟨fm2, hfm2, hrest2⟩ := hrest.2 j hj
      exact ⟨fm2, List.mem_cons_of_mem _ hfm2, hrest2⟩
    · have hload : load_checkpoint ((fname, m) :: rest) =
          (m.dihedrals.map fun p =>
            ({ name := molNameOf fname ++ "_" ++ p.1,
               mol_name := molNameOf fname,
               id := p.2.jobid,
               status := p.2.status,
               progress := none,
               error := none } : Job)) ++ load_checkpoint rest := by
        rw [load_checkpoint, if_neg hsc]
      have hfil : ((fname, m) :: rest).filter
          (fun fm => fm.1 != "scan_conf") =
            (fname, m) :: (rest.filter fun fm => fm.1 != "scan_conf") := by
        rw [List.filter_cons, if_pos (by simp [hsc])]
      constructor
      · rw [hload, hfil, List.length_append, List.length_map,
          List.map_cons, List.sum_cons, hrest.1]
      · intro j hj
        rw [hload] at hj
        rcases List.mem_append.mp hj with hleft | hright
        · obtain ⟨p, hp, hpj⟩ := List.mem_map.mp hleft
          exact ⟨(fname, m), List.mem_cons_self _ _, hsc, p, hp,
            by rw [← hpj]⟩
        · obtain ⟨fm2, hfm2, hrest2⟩ := hrest.2 j hright
          exact ⟨fm2, List.mem_cons_of_mem _ hfm2, hrest2⟩

theorem C7_witness :
    (stateW7.map Prod.fst).Nodup ∧
      ((load_checkpoint stateW7).length =
          ((stateW7.filter fun fm => fm.1 != "scan_conf").map
            (fun fm => fm.2.dihedrals.length)).sum ∧
        ∀ j ∈ load_checkpoint stateW7, ∃ fm ∈ stateW7, fm.1 ≠ "scan_conf" ∧
          ∃ p ∈ fm.2.dihedrals, j.name = molNameOf fm.1 ++ "_" ++ p.1) :=
  ⟨by decide, C7_load_checkpoint_shape stateW7 (by decide)⟩

/- ## Claim C8 -/

/-- C8: called with an empty energy dictionary, `plot_1d_energies` writes
no plot file and raises no exception — it returns right after printing the
skip message. -/
theorem C8_plot_empty_dict_skips (filename title : String) :
    plot_1d_energies [] filename title = Except.ok none := rfl

/- ## Claim C9 -/

lemma progressList_length (jobs : List Job) (ps : List Nat)
    (h : progressList jobs = some ps) : ps.length = jobs.length := by
  induction jobs generalizing ps with
  | nil =>
    unfold progressList at h
    injection h with h2
    rw [← h2]
    rfl
  | cons j T ih =>
    unfold progressList at h
    split at h
    · injection h with h2
      rename_i p qs hp hT
      rw [← h2, List.length_cons, ih qs hT, List.length_cons]
    · exact Option.noConfusion h

/-- C9: for every nonempty job list in which every job has a progress
value, the histogram bin width computed by `print_progress` equals
`max(max_progress // 6, 1)` and is therefore at least 1, even when every
job reports zero progress. -/
theorem C9_bin_width_at_least_one
    (jobs : List Job) (ps : List Nat)
    (hne : jobs ≠ [])
    (hps : progressList jobs = some ps) :
    print_progress_bin_width jobs = some (max (maxProgress ps / 6) 1) ∧
      ∀ w, print_progress_bin_width jobs = some w → 1 ≤ w := by
  have hlen : ps.length = jobs.length := progressList_length jobs ps hps
  obtain ⟨p, t, rfl⟩ : ∃ p t, ps = p :: t := by
    cases ps with
    | nil =>
      exfalso
      apply hne
      cases jobs with
      | nil => rfl
      | cons j T => simp at hlen
    | cons p t => exact ⟨p, t, rfl⟩
  have hmain : print_progress_bin_width jobs =
      some (max (maxProgress (p :: t) / 6) 1) := by
    unfold print_progress_bin_width
    rw [hps]
  refine ⟨hmain, ?_⟩
  intro w hw
  rw [hmain] at hw
  injection hw with h2
  rw [← h2]
  exact le_max_right _ _

theorem C9_witness :
    jobsW9 ≠ [] ∧ progressList jobsW9 = some [0, 0] ∧
      (print_progress_bin_width jobsW9 =
          some (max (maxProgress [0, 0] / 6) 1) ∧
        ∀ w, print_progress_bin_width jobsW9 = some w → 1 ≤ w) :=
  ⟨by decide, by decide,
    C9_bin_width_at_least_one jobsW9 [0, 0] (by decide) (by decide)⟩

/- ## Claim C2 -/

/-- C2 counterexample: for a job whose only grid point has driver
`"energy"`, materialization does raise the type-mismatch assertion, but a
`.gradxyz` file IS produced — `open(grad_filename, 'w')` creates it before
the assertion runs, so it exists (here empty), refuting the claim that no
gradient file is produced. -/
theorem C2_counterexample :
    (download_complete_job fmtPlain "m_d1" recC2).fail =
        some (MatFail.grad (GradFail.wrongType "energy")) ∧
      (download_complete_job fmtPlain "m_d1" recC2).gradFile = some "" ∧
      (download_complete_job fmtPlain "m_d1" recC2).gradFile ≠ none := by
  refine ⟨by decide, by decide, by decide⟩

/-- The gradient loop aborts with the type-mismatch assertion at the first
grid point whose result record has a driver other than `"gradient"`,
leaving in the file exactly the blocks of the preceding (well-formed)
grid points. -/
lemma gradLoop_stops_at_wrong_type
    (fmt : PyFormat) (name : String) (rec : TDRecord) (en : Rat)
    (gbad : List Int) (rest : List (List Int)) (rb : ResultRecord)
    (hres : lookupGrid rec.final_results gbad = some rb)
    (hdrv : rb.driver ≠ "gradient") :
    ∀ (pre : List (List Int)) (c : String),
      (gradLoop fmt name rec en pre c).fail = none →
      gradLoop fmt name rec en (pre ++ gbad :: rest) c =
        { content := (gradLoop fmt name rec en pre c).content,
          fail := some (GradFail.wrongType rb.driver) } := by
  intro pre
  induction pre with
  | nil =>
    intro c _
    have hb : (rb.driver != "gradient") = true := by
      rw [bne_iff_ne]; exact hdrv
    show gradLoop fmt name rec en (gbad :: rest) c = _
    simp [gradLoop, hres, hb]
  | cons g pre2 ih =>
    intro c hok
    cases hr1 : lookupGrid rec.final_results g with
    | none =>
      exfalso
      simp [gradLoop, hr1] at hok
    | some r =>
      by_cases hd : (r.driver != "gradient") = true
      · exfalso
        simp [gradLoop, hr1, hd] at hok
      · have hd2 : (r.driver != "gradient") = false := Bool.eq_false_iff.mpr hd
        cases hc3 : chunk3 r.return_result with
        | none =>
          exfalso
          simp [gradLoop, hr1, hd2, hc3] at hok
        | some gm =>
          cases hm : lookupGrid rec.final_molecules g with
          | none =>
            exfalso
            simp [gradLoop, hr1, hd2, hc3, hm] at hok
          | some mol =>
            have hstep : ∀ (c2 : String) (l : List (List Int)),
                gradLoop fmt name rec en (g :: l) c2 =
                  gradLoop fmt name rec en l (c2 ++ gradBlock fmt mol.symbols
                    gm (gradTitle fmt name g en)) := by
              intro c2 l
              simp [gradLoop, hr1, hd2, hc3, hm]
            have hok2 : (gradLoop fmt name rec en pre2 (c ++ gradBlock fmt
                mol.symbols gm (gradTitle fmt name g en))).fail = none := by
              rw [← hstep c pre2]
              exact hok
            rw [List.cons_append, hstep c (pre2 ++ gbad :: rest), ih _ hok2,
              ← hstep c pre2]

/-- C2 (amended): for every COMPLETE job whose sorted grid points contain
a point whose final result record has a driver other than `"gradient"`
(the points before it being well-formed gradient records), materialization
raises the type-mismatch assertion for that job and writes no block for
that or any later grid point — but the `.gradxyz` file is nevertheless
created, containing exactly the blocks of the preceding grid points
(empty when the first point already mismatches). -/
theorem C2_amended_wrong_driver_creates_partial_file
    (fmt : PyFormat) (name : String) (rec : TDRecord)
    (pre rest : List (List Int)) (gbad : List Int) (rb : ResultRecord)
    (hsplit : sortedGridIds rec = pre ++ gbad :: rest)
    (hxyz : (xyzPhaseOf fmt name rec).failed = false)
    (hplot : ∃ p, plot_1d_energies rec.final_energies (name ++ ".pdf") name =
        Except.ok p)
    (hres : lookupGrid rec.final_results gbad = some rb)
    (hdrv : rb.driver ≠ "gradient")
    (hpre : (gradLoop fmt name rec (lastEnergyOf fmt name rec) pre "").fail =
        none) :
    (download_complete_job fmt name rec).fail =
        some (MatFail.grad (GradFail.wrongType rb.driver)) ∧
      (download_complete_job fmt name rec).gradFile =
        some ((gradLoop fmt name rec (lastEnergyOf fmt name rec)
          pre "").content) := by
  obtain ⟨p, hp⟩ := hplot
  have hloop := gradLoop_stops_at_wrong_type fmt name rec
    (lastEnergyOf fmt name rec) gbad rest rb hres hdrv pre "" hpre
  have hrec : download_complete_job fmt name rec =
      { xyzFile := some (xyzPhaseOf fmt name rec).content
        plotWritten := p.isSome
        gradFile := some (gradLoop fmt name rec (lastEnergyOf fmt name rec)
          (sortedGridIds rec) "").content
        fail := ((gradLoop fmt name rec (lastEnergyOf fmt name rec)
          (sortedGridIds rec) "").fail).map MatFail.grad } := by
    simp [download_complete_job, hxyz, hp]
  rw [hrec, hsplit, hloop]
  exact ⟨rfl, rfl⟩

theorem C2_amended_witness :
    sortedGridIds recW2 = [[0]] ++ [180] :: [] ∧
      (xyzPhaseOf fmtPlain "m_d1" recW2).failed = false ∧
      lookupGrid recW2.final_results [180] =
        some { driver := "energy", return_result := [4, 5, 6] } ∧
      (gradLoop fmtPlain "m_d1" recW2 (lastEnergyOf fmtPlain "m_d1" recW2)
        [[0]] "").fail = none ∧
      ((download_complete_job fmtPlain "m_d1" recW2).fail =
          some (MatFail.grad (GradFail.wrongType "energy")) ∧
        (download_complete_job fmtPlain "m_d1" recW2).gradFile =
          some ((gradLoop fmtPlain "m_d1" recW2
            (lastEnergyOf fmtPlain "m_d1" recW2) [[0]] "").content)) :=
  ⟨by decide, by decide, by decide, by decide,
    C2_amended_wrong_driver_creates_partial_file fmtPlain "m_d1" recW2
      [[0]] [] [180] { driver := "energy", return_result := [4, 5, 6] }
      (by decide) (by decide) ⟨_, rfl⟩
      (by decide) (by decide) (by decide)⟩

/- ## Claim C3 -/

/-- C3 (code-bug evidence): the gradient loop interpolates the stale
variable `energy` — left over from the xyz loop, where it ended at the
LAST grid point's energy — into every block title.  At this input with two
grid points of energies 1 and 2, the block written for grid point `(0,)`
carries energy 2 (the energy of `(180,)`) in its title instead of its own
energy 1, against both the claim and the coordinate-file block structure
it is supposed to mirror. -/
theorem C3_stale_energy_in_grad_titles :
    (download_complete_job fmtPlain "m_d0" recC3).gradFile =
        some (gradBlock fmtPlain ["H"] [(1, 2, 3)]
            (gradTitle fmtPlain "m_d0" [0] 2) ++
          gradBlock fmtPlain ["H"] [(4, 5, 6)]
            (gradTitle fmtPlain "m_d0" [180] 2)) ∧
      gradTitle fmtPlain "m_d0" [0] 2 ≠ gradTitle fmtPlain "m_d0" [0] 1 := by
  refine ⟨by decide, by decide⟩

end TorsionMonitor
